import Mathlib

/-
Verification of the document-ingestion / vector-embedding synchronization
pipeline: the `sync-utils` helpers (`needsUpdate`, `deleteOldEmbeddings`,
`createChunkItems`), the knowledge-base document sync task
(`processKnowledgeBaseDocumentTask`), and the `extractS3KeyFromUrl` key
sanitizers.

Modelling conventions:
  * JavaScript strings are Lean `String`; the TypeScript `<` comparison on
    ISO-8601 timestamp strings is Lean's lexicographic `String` `<`.
  * A JavaScript object literal used as a string-keyed metadata map is a
    `List (String × String)` in insertion order; property lookup takes the
    LAST binding for a key, which models the object-spread override
    semantics of `{ a: x, ...m }`.
  * Fallible calls return `Except String α`; a thrown exception is
    `Except.error msg`.
  * External effects of one task run (vector-index calls, source-record
    status writes, object-storage reads, warning/error logs) are recorded
    in an explicit trace so that claims about "no index call" or
    "delete before upsert" are statements about the trace.
-/

/-- Existing embedding record as read back from the vector index:
identifier and recorded `updatedAt` string (`find-existing-embeddings`
exposes `{id, updatedAt}`).  A JS-falsy `updatedAt` is modelled by the
empty string. -/
structure ExistingEmbedding where
  id : String
  updatedAt : String
deriving DecidableEq, Repr

/-- Source types of the pipeline (sync-utils.ts `SourceType`). -/
inductive SourceType where
  | policy
  | context
  | manual_answer
  | knowledge_base_document
deriving DecidableEq, Repr

/-- String rendering of a `SourceType`, as the TS string-literal union. -/
def sourceTypeStr : SourceType → String
  | SourceType.policy => ("policy")
  | SourceType.context => ("context")
  | SourceType.manual_answer => ("manual_answer")
  | SourceType.knowledge_base_document => ("knowledge_base_document")

/-- Chunk item handed to the vector-index upsert (sync-utils.ts
`ChunkItem`).  The metadata object is kept as an insertion-ordered list of
key/value pairs; `sourceType` is stored through its string rendering since
the TS object carries a string index signature. -/
structure ChunkItem where
  id : String
  text : String
  metadata : List (String × String)
deriving DecidableEq, Repr

/-- Property lookup on a modelled JS object: the LAST binding for a key
wins, matching object-literal/spread override semantics. -/
def objGet (ps : List (String × String)) (k : String) : Option String :=
  (ps.reverse.find? (fun p => p.1 == k)).map (fun p => p.2)

/-- Check whether `pat` occurs as a contiguous substring starting at some
suffix of `s`. -/
def listContainsSub : List Char → List Char → Bool
  | s, pat =>
    if pat.isPrefixOf s then true
    else
      match s with
      | [] => false
      | _ :: t => listContainsSub t pat

/-- Check whether `pat` occurs as a contiguous substring of `s`
(JavaScript `String.prototype.includes`). -/
def containsSub (s pat : String) : Bool :=
  listContainsSub s.toList pat.toList

/-- JavaScript `String.prototype.trim`, modelled structurally on the
character list so that it evaluates inside the kernel. -/
def strTrim (s : String) : String :=
  String.mk
    (((s.data.dropWhile Char.isWhitespace).reverse.dropWhile
      Char.isWhitespace).reverse)

/-- JavaScript `String.prototype.toLowerCase`, modelled structurally. -/
def strToLower (s : String) : String :=
  String.mk (s.data.map Char.toLower)

/-- JavaScript `String.prototype.startsWith`, modelled structurally. -/
def strStartsWith (s pre : String) : Bool :=
  pre.data.isPrefixOf s.data

/-- JavaScript `String.prototype.endsWith`, modelled structurally. -/
def strEndsWith (s suffix : String) : Bool :=
  suffix.data.reverse.isPrefixOf s.data.reverse

/-- Lexicographic comparison of character lists, mirroring the JavaScript
`<` operator on strings (compare code units left to right; a proper
prefix is smaller). -/
def listLexLt : List Char → List Char → Bool
  | [], [] => false
  | [], _ :: _ => true
  | _ :: _, [] => false
  | a :: as, b :: bs =>
      if a < b then true else if b < a then false else listLexLt as bs

/-- JavaScript `<` on strings (lexicographic by code unit). -/
def strLt (a b : String) : Bool :=
  listLexLt a.data b.data

/-- Modelled from the spec: the chunker `chunkText`
(`vector-store/lib/utils/chunk-text`, not under src/).  Per §4.2 it splits
text into overlapping fixed-size windows: each chunk starts
`chunkSize - overlap` after the previous one, every chunk except possibly
the last has exactly `chunkSize` units, and text no longer than
`chunkSize` yields exactly one chunk equal to the input.  The fuel
argument (initialized to the text length) only bounds the recursion; with
a positive stride it is never exhausted. -/
def chunkTextGo (fuel : Nat) (cs : List Char) (chunkSize stride : Nat) :
    List (List Char) :=
  match fuel with
  | 0 => [cs]
  | Nat.succ f =>
      if cs.length ≤ chunkSize then [cs]
      else cs.take chunkSize :: chunkTextGo f (cs.drop stride) chunkSize stride

/-- Modelled from the spec: `chunkText(text, chunkSize, overlap)` (§4.2);
the window stride is `chunkSize - overlap`.  All call sites in the
verified code use the valid configuration `chunkSize = 500`,
`overlap = 50`. -/
def chunkText (text : String) (chunkSize overlap : Nat) : List String :=
  (chunkTextGo text.toList.length text.toList chunkSize
    (chunkSize - overlap)).map String.mk

/-- Staleness check, from sync-utils.ts `needsUpdate`:
`existingEmbeddings.length === 0 || existingEmbeddings.some((e) =>
!e.updatedAt || e.updatedAt < updatedAt)`.  The JS-falsy test
`!e.updatedAt` on a string is `isEmpty`. -/
def needsUpdate (existingEmbeddings : List ExistingEmbedding)
    (updatedAt : String) : Bool :=
  existingEmbeddings.isEmpty ||
    existingEmbeddings.any
      (fun e => e.updatedAt.isEmpty || strLt e.updatedAt updatedAt)

/-- Calls made against the vector index during a run. -/
inductive IndexOp where
  | query (sourceId : String) (sourceType : String) (organizationId : String)
  | delete (ids : List String)
  | upsert (items : List ChunkItem)
deriving DecidableEq, Repr

/-- Whether an index op is a delete. -/
def IndexOp.isDelete : IndexOp → Bool
  | IndexOp.delete _ => true
  | _ => false

/-- Whether an index op is an upsert. -/
def IndexOp.isUpsert : IndexOp → Bool
  | IndexOp.upsert _ => true
  | _ => false

/-- Deletion of old embeddings, from sync-utils.ts `deleteOldEmbeddings`:
returns immediately when the list is empty or the vector index client is
unconfigured; otherwise issues one `delete` call with all ids, catching
and logging any failure from the call.  The returned pair is (index calls
issued, warning logs); `deleteFailure = some msg` models the delete call
throwing.  The function always returns (the catch swallows the only
fallible call). -/
def deleteOldEmbeddings (embeddings : List ExistingEmbedding)
    (vectorIndexAvailable : Bool) (deleteFailure : Option String) :
    List IndexOp × List String :=
  if embeddings.isEmpty || !vectorIndexAvailable then ([], [])
  else
    let idsToDelete := embeddings.map (fun e => e.id)
    match deleteFailure with
    | none => ([IndexOp.delete idsToDelete], [])
    | some _ =>
        ([IndexOp.delete idsToDelete], [("Failed to delete old embeddings")])

/-- The mapped (pre-filter) chunk items of sync-utils.ts
`createChunkItems`: chunk `i` gets id
`idPrefix + "_" + sourceId + "_chunk" + i` and metadata
`{organizationId, sourceType, sourceId, content, updatedAt,
...extraMetadata}` (the spread comes last, so `extraMetadata` bindings
override the base fields on key collision). -/
def createChunkItemsAll (text sourceId : String) (sourceType : SourceType)
    (organizationId updatedAt idPrefix : String)
    (extraMetadata : List (String × String)) (chunkSize overlap : Nat) :
    List ChunkItem :=
  (chunkText text chunkSize overlap).enum.map
    (fun ic =>
      ChunkItem.mk (idPrefix ++ "_" ++ sourceId ++ "_chunk" ++ toString ic.1)
        ic.2
        ([("organizationId", organizationId),
          ("sourceType", sourceTypeStr sourceType),
          ("sourceId", sourceId),
          ("content", ic.2),
          ("updatedAt", updatedAt)] ++ extraMetadata))

/-- sync-utils.ts `createChunkItems`: the mapped items of
`createChunkItemsAll`, keeping only items whose text is nonempty after
trimming (`item.text && item.text.trim().length > 0`). -/
def createChunkItems (text sourceId : String) (sourceType : SourceType)
    (organizationId updatedAt idPrefix : String)
    (extraMetadata : List (String × String)) (chunkSize overlap : Nat) :
    List ChunkItem :=
  (createChunkItemsAll text sourceId sourceType organizationId updatedAt
    idPrefix extraMetadata chunkSize overlap).filter
    (fun item => !(strTrim item.text).isEmpty)

/-- Upsert of chunk items, from sync-utils.ts `upsertChunks` /
`batchUpsertEmbeddings`: the index call is made only when the item list is
nonempty. -/
def upsertChunks (chunkItems : List ChunkItem) : List IndexOp :=
  if chunkItems.isEmpty then [] else [IndexOp.upsert chunkItems]

/-- Knowledge-base document source record as read by the task.
`updatedAt` holds the record timestamp already rendered as its ISO-8601
string (the code only uses `document.updatedAt.toISOString()`). -/
structure KnowledgeBaseDocument where
  id : String
  organizationId : String
  s3Key : String
  fileType : String
  name : String
  updatedAt : String
deriving DecidableEq, Repr

/-- Payload of `processKnowledgeBaseDocumentTask`. -/
structure Payload where
  documentId : String
  organizationId : String
deriving DecidableEq, Repr

/-- One write to the source record's processing status; `processedAt`
records whether the write also set the `processedAt` timestamp. -/
structure StatusWrite where
  status : String
  processedAt : Bool
deriving DecidableEq, Repr

/-- Structured result value returned by the task's `run`.  Fields the
code omits on a given path are `none`. -/
structure TaskResult where
  success : Bool
  documentId : String
  error : Option String
  chunkCount : Option Nat
deriving DecidableEq, Repr

/-- External-world inputs of one task run: the document table, the
outcome of the object-storage fetch + content extraction, the embeddings
returned by the vector-index query, whether the shared vector-index
client is configured, and whether the index delete/upsert calls throw
(`some msg` = throws with message `msg`). -/
structure RunEnv where
  db : List KnowledgeBaseDocument
  extractResult : Except String String
  existingEmbeddings : List ExistingEmbedding
  vectorIndexAvailable : Bool
  deleteFailure : Option String
  upsertFailure : Option String
deriving Repr

/-- Decidable equality for `Except`, needed to evaluate statements about
run results on concrete inputs. -/
instance {ε α : Type} [DecidableEq ε] [DecidableEq α] :
    DecidableEq (Except ε α) := fun x y =>
  match x, y with
  | Except.ok a, Except.ok b =>
      if h : a = b then Decidable.isTrue (by rw [h])
      else Decidable.isFalse (fun hc => h (Except.ok.inj hc))
  | Except.error a, Except.error b =>
      if h : a = b then Decidable.isTrue (by rw [h])
      else Decidable.isFalse (fun hc => h (Except.error.inj hc))
  | Except.ok _, Except.error _ =>
      Decidable.isFalse (fun hc => Except.noConfusion hc)
  | Except.error _, Except.ok _ =>
      Decidable.isFalse (fun hc => Except.noConfusion hc)

/-- Observable outcome of one task run: the returned (or thrown) result,
the source-record status writes in order, the vector-index calls in
order, the number of object-storage reads, and the warning/error log
lines the model tracks. -/
structure RunOutput where
  result : Except String TaskResult
  statusWrites : List StatusWrite
  indexOps : List IndexOp
  storageReads : Nat
  logs : List String
deriving DecidableEq, Repr

/-- Tenant-scoped record lookup:
`db.knowledgeBaseDocument.findUnique({where: {id, organizationId}})`. -/
def findUnique (db : List KnowledgeBaseDocument) (id organizationId : String) :
    Option KnowledgeBaseDocument :=
  db.find? (fun d => d.id == id && d.organizationId == organizationId)

/-- Whether an `Except` outcome is a raised (uncaught) error. -/
def raised : Except String TaskResult → Bool
  | Except.error _ => true
  | Except.ok _ => false

/-- The chunk items built inline by `processKnowledgeBaseDocumentTask`
(unnamed part_002, lines 1188-1202), hoisted into a named definition:
chunk `i` of `chunkText(content, 500, 50)` gets id
`knowledge_base_document_<documentId>_chunk<i>`, the chunk text, and
metadata `{organizationId, sourceType, sourceId, content, documentName,
updatedAt: document.updatedAt.toISOString()}`; items whose text trims to
empty are filtered out. -/
def kbChunkItems (document : KnowledgeBaseDocument)
    (organizationId content : String) : List ChunkItem :=
  ((chunkText content 500 50).enum.map
    (fun ic =>
      ChunkItem.mk
        (("knowledge_base_document_") ++ document.id ++
          ("_chunk") ++ toString ic.1)
        ic.2
        [("organizationId", organizationId),
         ("sourceType", ("knowledge_base_document")),
         ("sourceId", document.id),
         ("content", ic.2),
         ("documentName", document.name),
         ("updatedAt", document.updatedAt)])).filter
    (fun item => !(strTrim item.text).isEmpty)

/-- The `run` of `processKnowledgeBaseDocumentTask` (unnamed part_002,
lines 1068-1264), step for step:
1. tenant-scoped `findUnique`; absent → return
   `{success:false, error:'Document not found'}` with no further effect;
2. status write `processing`;
3. S3 fetch + extraction (`extractContentFromKnowledgeBaseDocument`);
   a throw is caught by the catch-all, which writes `failed` with
   `processedAt` and RETURNS `{success:false, error}` (no re-throw);
4. empty/whitespace content → write `failed` + `processedAt`, return
   structured failure, no index call;
5. `findEmbeddingsForSource` query (its body is not under src/ and is
   modelled as returning `env.existingEmbeddings`), then, if any exist
   and the index client is configured, one `delete` of all their ids,
   any throw of which is caught and only logged;
6. `chunkText(content, 500, 50)`, build chunk items with deterministic
   ids and metadata, filter out whitespace-only items;
7. `batchUpsertEmbeddings` when items remain (its body is not under
   src/; modelled from the spec: it is a no-op when the shared index
   client is unconfigured, and throws on index failure); a throw reaches
   the catch-all: `failed` + `processedAt` written, structured failure
   returned;
8. otherwise status write `completed` + `processedAt` and
   `{success:true, chunkCount}`. -/
def processKnowledgeBaseDocumentTask (env : RunEnv) (p : Payload) :
    RunOutput :=
  match findUnique env.db p.documentId p.organizationId with
  | none =>
      RunOutput.mk
        (Except.ok (TaskResult.mk false p.documentId
          (some ("Document not found")) none))
        [] [] 0 [("Document not found")]
  | some document =>
      match env.extractResult with
      | Except.error e =>
          RunOutput.mk
            (Except.ok (TaskResult.mk false p.documentId (some e) none))
            [StatusWrite.mk ("processing") false,
             StatusWrite.mk ("failed") true]
            [] 1 [("Error processing Knowledge Base document")]
      | Except.ok content =>
          if (strTrim content).isEmpty then
            RunOutput.mk
              (Except.ok (TaskResult.mk false document.id
                (some ("No content extracted from document")) none))
              [StatusWrite.mk ("processing") false,
               StatusWrite.mk ("failed") true]
              [] 1 [("No content extracted from document")]
          else
            let queryOp := IndexOp.query document.id
              ("knowledge_base_document") p.organizationId
            let existing := env.existingEmbeddings
            let deleteOps :=
              if !existing.isEmpty && env.vectorIndexAvailable then
                [IndexOp.delete (existing.map (fun e => e.id))]
              else []
            let deleteLogs :=
              if !existing.isEmpty && env.vectorIndexAvailable &&
                  (env.deleteFailure).isSome then
                [("Failed to delete existing embeddings")]
              else []
            let chunks := chunkText content 500 50
            if chunks.isEmpty then
              RunOutput.mk
                (Except.ok (TaskResult.mk false document.id
                  (some ("No chunks created from content")) none))
                [StatusWrite.mk ("processing") false,
                 StatusWrite.mk ("failed") true]
                ([queryOp] ++ deleteOps) 1
                (deleteLogs ++ [("No chunks created from content")])
            else
              match
                (if !(kbChunkItems document p.organizationId content).isEmpty &&
                    env.vectorIndexAvailable then
                  env.upsertFailure
                else none) with
              | some m =>
                  RunOutput.mk
                    (Except.ok (TaskResult.mk false p.documentId
                      (some m) none))
                    [StatusWrite.mk ("processing") false,
                     StatusWrite.mk ("failed") true]
                    ([queryOp] ++ deleteOps ++
                      (if !(kbChunkItems document p.organizationId
                            content).isEmpty &&
                          env.vectorIndexAvailable then
                        [IndexOp.upsert
                          (kbChunkItems document p.organizationId content)]
                      else [])) 1
                    (deleteLogs ++
                      [("Error processing Knowledge Base document")])
              | none =>
                  RunOutput.mk
                    (Except.ok (TaskResult.mk true document.id none
                      (some (kbChunkItems document p.organizationId
                        content).length)))
                    [StatusWrite.mk ("processing") false,
                     StatusWrite.mk ("completed") true]
                    ([queryOp] ++ deleteOps ++
                      (if !(kbChunkItems document p.organizationId
                            content).isEmpty &&
                          env.vectorIndexAvailable then
                        [IndexOp.upsert
                          (kbChunkItems document p.organizationId content)]
                      else [])) 1
                    deleteLogs

/-- Result of the JavaScript `new URL(...)` constructor: the pieces the
key extractor reads. -/
structure ParsedUrl where
  host : String
  pathname : String
deriving DecidableEq, Repr

/-- Oracle for the JavaScript platform primitives `extractS3KeyFromUrl`
calls but whose exact behavior is external to the repository: `new URL`
(`parse`, `none` models the constructor throwing),
`decodeURIComponent` (`decode`; a run in which decoding itself throws
returns no key and is outside the oracle's range), and the two regular
expression tests (the S3-host pattern of `isValidS3Host` and the
domain-like pattern).  The safety theorems hold for EVERY oracle. -/
structure UrlOracle where
  parse : String → Option ParsedUrl
  decode : String → String
  s3HostRegex : String → Bool
  domainLike : String → Bool

/-- Host validation from `isValidS3Host` (sync-utils.ts and unnamed
part_004): lower-case the host, require the `.amazonaws.com` suffix,
then the S3-host regular expression (oracle). -/
def isValidS3Host (o : UrlOracle) (host : String) : Bool :=
  let normalizedHost := strToLower host
  if !(strEndsWith normalizedHost (".amazonaws.com")) then false
  else o.s3HostRegex normalizedHost

/-- Key extractor from
src/apps/api/src/vector-store/lib/sync/sync-utils.ts
`extractS3KeyFromUrl` (lines 259-315): empty input throws; a parsed URL
must have a valid S3 host, and its decoded pathname (sans leading slash)
is rejected on `../` or `..\` and on emptiness; a non-URL input is
rejected on `://`, on a domain-like pattern, and on `../` or `..\`,
then returned with any single leading slash stripped, if nonempty. -/
def extractS3KeyFromUrl (o : UrlOracle) (url : String) :
    Except String String :=
  if url.isEmpty then
    Except.error ("Invalid input: URL must be a non-empty string")
  else
    match o.parse url with
    | some parsedUrl =>
        if !isValidS3Host o parsedUrl.host then
          Except.error ("Invalid URL: Not a valid S3 endpoint")
        else
          if containsSub (o.decode (parsedUrl.pathname.drop 1)) ("../") ||
              containsSub (o.decode (parsedUrl.pathname.drop 1)) ("..\\") then
            Except.error ("Invalid S3 key: Path traversal detected")
          else if (o.decode (parsedUrl.pathname.drop 1)).isEmpty then
            Except.error ("Invalid S3 key: Key cannot be empty")
          else Except.ok (o.decode (parsedUrl.pathname.drop 1))
    | none =>
        if containsSub (strToLower url) ("://") then
          Except.error ("Invalid input: Malformed URL detected")
        else if o.domainLike url then
          Except.error ("Invalid input: Domain-like pattern detected in S3 key")
        else if containsSub url ("../") || containsSub url ("..\\") then
          Except.error ("Invalid S3 key: Path traversal detected")
        else
          if (if strStartsWith url ("/") then url.drop 1 else url).isEmpty then
            Except.error ("Invalid S3 key: Key cannot be empty")
          else Except.ok (if strStartsWith url ("/") then url.drop 1 else url)

/-- Key extractor from unnamed part_004 (lines 158-214), the variant used
by the app's S3 library.  It differs from the sync-utils variant only in
the non-URL branch: it rejects inputs containing `://` or
`amazonaws.com` and has no domain-like–pattern check. -/
def extractS3KeyFromUrlApp (o : UrlOracle) (url : String) :
    Except String String :=
  if url.isEmpty then
    Except.error ("Invalid input: URL must be a non-empty string")
  else
    match o.parse url with
    | some parsedUrl =>
        if !isValidS3Host o parsedUrl.host then
          Except.error ("Invalid URL: Not a valid S3 endpoint")
        else
          if containsSub (o.decode (parsedUrl.pathname.drop 1)) ("../") ||
              containsSub (o.decode (parsedUrl.pathname.drop 1)) ("..\\") then
            Except.error ("Invalid S3 key: Path traversal detected")
          else if (o.decode (parsedUrl.pathname.drop 1)).isEmpty then
            Except.error ("Invalid S3 key: Key cannot be empty")
          else Except.ok (o.decode (parsedUrl.pathname.drop 1))
    | none =>
        if containsSub (strToLower url) ("://") ||
            containsSub (strToLower url) ("amazonaws.com") then
          Except.error ("Invalid input: Malformed URL detected")
        else if containsSub url ("../") || containsSub url ("..\\") then
          Except.error ("Invalid S3 key: Path traversal detected")
        else
          if (if strStartsWith url ("/") then url.drop 1 else url).isEmpty then
            Except.error ("Invalid S3 key: Key cannot be empty")
          else Except.ok (if strStartsWith url ("/") then url.drop 1 else url)

/-- Concrete knowledge-base document fixture: `doc-1` of `org-1`. -/
def docA : KnowledgeBaseDocument :=
  KnowledgeBaseDocument.mk ("doc-1") ("org-1") ("uploads/doc-1.pdf")
    ("application/pdf") ("Doc One") ("2024-01-01T00:00:00.000Z")

/-- Payload asking for `doc-1` as its owner organization `org-1`. -/
def payloadA : Payload := Payload.mk ("doc-1") ("org-1")

/-- Payload asking for `doc-1` as a different organization `org-2`. -/
def payloadCross : Payload := Payload.mk ("doc-1") ("org-2")

/-- An existing embedding of `doc-1` whose recorded `updatedAt` equals
the record's current `updatedAt` (so `needsUpdate` is false). -/
def embA : ExistingEmbedding :=
  ExistingEmbedding.mk ("knowledge_base_document_doc-1_chunk0")
    ("2024-01-01T00:00:00.000Z")

/-- Environment of a first sync: document present, extraction succeeds
with nonempty content, no existing embeddings, index configured, no
failures. -/
def envFresh : RunEnv :=
  RunEnv.mk [docA] (Except.ok ("hello world")) [] true none none

/-- Environment of a second sync of the unchanged source: like
`envFresh` but the index already holds `embA`. -/
def envSecond : RunEnv :=
  RunEnv.mk [docA] (Except.ok ("hello world")) [embA] true none none

/-- Environment in which extraction yields a whitespace-only string. -/
def envBlank : RunEnv :=
  RunEnv.mk [docA] (Except.ok ("   ")) [] true none none

/-- Environment with an empty document table. -/
def envNoDoc : RunEnv :=
  RunEnv.mk [] (Except.ok ("hello world")) [] true none none

/-- Environment in which the vector-index upsert call throws. -/
def envUpsertFail : RunEnv :=
  RunEnv.mk [docA] (Except.ok ("hello world")) [embA] true none
    (some ("vector upsert failed"))

/-- Environment in which the object-storage fetch throws. -/
def envFetchFail : RunEnv :=
  RunEnv.mk [docA] (Except.error ("Failed to retrieve file from S3")) []
    true none none

/-- Substring occurrence is preserved by extending the haystack on the
left with one character. -/
lemma listContainsSub_cons (c : Char) (t pat : List Char)
    (h : listContainsSub t pat = true) : listContainsSub (c :: t) pat = true := by
  unfold listContainsSub
  split
  · rfl
  · exact h

/-- Substring occurrence in a dropped haystack implies occurrence in the
full haystack. -/
lemma listContainsSub_drop (s pat : List Char) (n : Nat)
    (h : listContainsSub (s.drop n) pat = true) :
    listContainsSub s pat = true := by
  induction s generalizing n with
  | nil => simpa using h
  | cons c t ih =>
      cases n with
      | zero => simpa using h
      | succ m => exact listContainsSub_cons c t pat (ih m (by simpa using h))

/-- Substring occurrence in `s.drop 1` implies occurrence in `s`, at the
level of `String`. -/
lemma containsSub_drop_one (s pat : String)
    (h : containsSub (s.drop 1) pat = true) : containsSub s pat = true := by
  unfold containsSub at h ⊢
  have hdata : (s.drop 1).toList = s.toList.drop 1 := String.data_drop s 1
  rw [hdata] at h
  exact listContainsSub_drop s.toList pat.toList 1 h

/-- Oracle modelling a run in which `new URL(url)` throws (plain-key
input) and both regular expressions fail to match. -/
def oracleNone : UrlOracle :=
  UrlOracle.mk (fun _ => none) (fun s => s) (fun _ => false) (fun _ => false)

/-- Guard analysis: if the traversal-then-emptiness guard chain returned
a key, that key passed both checks. -/
lemma keyGuardOk (k key msg1 msg2 : String)
    (h : (if (containsSub k ("../") || containsSub k ("..\\")) = true then
            Except.error msg1
          else if k.isEmpty = true then Except.error msg2
          else (Except.ok k : Except String String)) = Except.ok key) :
    key = k ∧ key ≠ ("") ∧ containsSub key ("../") = false ∧
      containsSub key ("..\\") = false := by
  split at h
  · exact Except.noConfusion h
  · split at h
    · exact Except.noConfusion h
    · rename_i htrav hemp
      have hne : k ≠ ("") := by
        simpa [String.isEmpty_iff] using hemp
      have h1 : containsSub k ("../") = false := by
        cases hx : containsSub k ("../") with
        | false => rfl
        | true => exact absurd (by simp [hx]) htrav
      have h2 : containsSub k ("..\\") = false := by
        cases hx : containsSub k ("..\\") with
        | false => rfl
        | true => exact absurd (by simp [hx]) htrav
      obtain rfl := Except.ok.inj h
      exact ⟨rfl, hne, h1, h2⟩

/-- Guard analysis: if the emptiness guard returned a key, the key is
the guarded value and nonempty. -/
lemma emptyGuardOk (k key msg : String)
    (h : (if k.isEmpty = true then Except.error msg
          else (Except.ok k : Except String String)) = Except.ok key) :
    key = k ∧ key ≠ ("") := by
  split at h
  · exact Except.noConfusion h
  · rename_i hemp
    obtain rfl := Except.ok.inj h
    exact ⟨rfl, by simpa [String.isEmpty_iff] using hemp⟩

/-- C10: For every input string on which `extractS3KeyFromUrl` returns
normally, the returned key is non-empty and contains neither `../` nor
`..\`, so no key permitting path traversal is ever returned; the empty
string is always rejected.  This holds for every behavior of the
external URL parser, percent-decoder and regular expressions (the
oracle), and for both variants of the function in the repository
(sync-utils.ts lines 259-315 and unnamed part_004 lines 158-214). -/
theorem extractS3KeyFromUrl_safety :
    ∀ (o : UrlOracle),
      (∃ msg, extractS3KeyFromUrl o ("") = Except.error msg) ∧
      (∃ msg, extractS3KeyFromUrlApp o ("") = Except.error msg) ∧
      (∀ url key, extractS3KeyFromUrl o url = Except.ok key →
        key ≠ ("") ∧ containsSub key ("../") = false ∧
          containsSub key ("..\\") = false) ∧
      (∀ url key, extractS3KeyFromUrlApp o url = Except.ok key →
        key ≠ ("") ∧ containsSub key ("../") = false ∧
          containsSub key ("..\\") = false) := by
  intro o
  refine ⟨⟨_, rfl⟩, ⟨_, rfl⟩, ?_, ?_⟩
  · intro url key h
    rw [extractS3KeyFromUrl] at h
    split at h
    · exact Except.noConfusion h
    · cases hp : o.parse url with
      | some parsedUrl =>
          simp only [hp] at h
          split at h
          · exact Except.noConfusion h
          · have hk := keyGuardOk _ key _ _ h
            exact ⟨hk.2.1, hk.2.2.1, hk.2.2.2⟩
      | none =>
          simp only [hp] at h
          split at h
          · exact Except.noConfusion h
          · split at h
            · exact Except.noConfusion h
            · split at h
              · exact Except.noConfusion h
              · rename_i hlow hdom htrav
                obtain ⟨hkey, hne⟩ := emptyGuardOk _ key _ h
                have htrav1 : containsSub url ("../") = false := by
                  cases hx : containsSub url ("../") with
                  | false => rfl
                  | true => exact absurd (by simp [hx]) htrav
                have htrav2 : containsSub url ("..\\") = false := by
                  cases hx : containsSub url ("..\\") with
                  | false => rfl
                  | true => exact absurd (by simp [hx]) htrav
                refine ⟨hne, ?_, ?_⟩
                · rw [hkey]
                  split
                  · cases hx : containsSub (url.drop 1) ("../") with
                    | false => rfl
                    | true =>
                        rw [containsSub_drop_one url ("../") hx] at htrav1
                        exact Bool.noConfusion htrav1
                  · exact htrav1
                · rw [hkey]
                  split
                  · cases hx : containsSub (url.drop 1) ("..\\") with
                    | false => rfl
                    | true =>
                        rw [containsSub_drop_one url ("..\\") hx] at htrav2
                        exact Bool.noConfusion htrav2
                  · exact htrav2
  · intro url key h
    rw [extractS3KeyFromUrlApp] at h
    split at h
    · exact Except.noConfusion h
    · cases hp : o.parse url with
      | some parsedUrl =>
          simp only [hp] at h
          split at h
          · exact Except.noConfusion h
          · have hk := keyGuardOk _ key _ _ h
            exact ⟨hk.2.1, hk.2.2.1, hk.2.2.2⟩
      | none =>
          simp only [hp] at h
          split at h
          · exact Except.noConfusion h
          · split at h
            · exact Except.noConfusion h
            · rename_i hlow htrav
              obtain ⟨hkey, hne⟩ := emptyGuardOk _ key _ h
              have htrav1 : containsSub url ("../") = false := by
                cases hx : containsSub url ("../") with
                | false => rfl
                | true => exact absurd (by simp [hx]) htrav
              have htrav2 : containsSub url ("..\\") = false := by
                cases hx : containsSub url ("..\\") with
                | false => rfl
                | true => exact absurd (by simp [hx]) htrav
              refine ⟨hne, ?_, ?_⟩
              · rw [hkey]
                split
                · cases hx : containsSub (url.drop 1) ("../") with
                  | false => rfl
                  | true =>
                      rw [containsSub_drop_one url ("../") hx] at htrav1
                      exact Bool.noConfusion htrav1
                · exact htrav1
              · rw [hkey]
                split
                · cases hx : containsSub (url.drop 1) ("..\\") with
                  | false => rfl
                  | true =>
                      rw [containsSub_drop_one url ("..\\") hx] at htrav2
                      exact Bool.noConfusion htrav2
                · exact htrav2

/-- Witness for C10 at a concrete plain-key input and concrete oracle. -/
theorem extractS3KeyFromUrl_safety_witness :
    extractS3KeyFromUrl oracleNone ("uploads/file.pdf") =
      Except.ok ("uploads/file.pdf") ∧
    (("uploads/file.pdf" : String) ≠ ("") ∧
      containsSub ("uploads/file.pdf") ("../") = false ∧
      containsSub ("uploads/file.pdf") ("..\\") = false) :=
  ⟨by decide,
    (extractS3KeyFromUrl_safety oracleNone).2.2.1 ("uploads/file.pdf")
      ("uploads/file.pdf") (by decide)⟩

/-- C2: `needsUpdate(existingEmbeddings, sourceUpdatedAt)` is true iff
the list is empty or some embedding records an `updatedAt`
lexicographically less than `sourceUpdatedAt`; the iff is stated for
embeddings whose recorded `updatedAt` is a nonempty string (an ISO-8601
timestamp is never empty; on an empty recorded string the code's
JS-falsiness disjunct `!e.updatedAt` fires as well).  The spec's three
concrete examples are included verbatim. -/
theorem needsUpdate_characterization :
    (∀ (l : List ExistingEmbedding) (t : String),
      (∀ e ∈ l, e.updatedAt ≠ ("")) →
      (needsUpdate l t = true ↔
        l = [] ∨ ∃ e ∈ l, strLt e.updatedAt t = true)) ∧
    (∀ t : String, needsUpdate [] t = true) ∧
    needsUpdate [ExistingEmbedding.mk ("emb-1") ("2024-01-01")]
      ("2024-02-01") = true ∧
    needsUpdate [ExistingEmbedding.mk ("emb-1") ("2024-03-01")]
      ("2024-02-01") = false := by
  refine ⟨?_, ?_, by decide, by decide⟩
  · intro l t h
    simp only [needsUpdate, Bool.or_eq_true, List.isEmpty_iff,
      List.any_eq_true, String.isEmpty_iff]
    constructor
    · rintro (rfl | ⟨e, he, hemp | hlt⟩)
      · exact Or.inl rfl
      · exact absurd hemp (h e he)
      · exact Or.inr ⟨e, he, hlt⟩
    · rintro (rfl | ⟨e, he, hlt⟩)
      · exact Or.inl rfl
      · exact Or.inr ⟨e, he, Or.inr hlt⟩
  · intro t
    rfl

/-- Witness for C2 at the spec's concrete first example. -/
theorem needsUpdate_characterization_witness :
    (∀ e ∈ [ExistingEmbedding.mk ("emb-1") ("2024-01-01")],
      e.updatedAt ≠ ("")) ∧
    (needsUpdate [ExistingEmbedding.mk ("emb-1") ("2024-01-01")]
        ("2024-02-01") = true ↔
      [ExistingEmbedding.mk ("emb-1") ("2024-01-01")] = [] ∨
        ∃ e ∈ [ExistingEmbedding.mk ("emb-1") ("2024-01-01")],
          strLt e.updatedAt ("2024-02-01") = true) :=
  ⟨by decide, needsUpdate_characterization.1 _ _ (by decide)⟩

/-- A run outcome with its log lines scrubbed, used to state that a
failure which is only logged changes nothing else about a run. -/
def dropLogs (r : RunOutput) : RunOutput :=
  RunOutput.mk r.result r.statusWrites r.indexOps r.storageReads []

/-- C4: When no source record with the requested id is owned by the
requesting organization — including when the record exists under a
different organization — the run returns the structured
`Document not found` failure, performs no status write, no
object-storage read and no vector-index call; and any two such runs for
the same document id are indistinguishable in their entire outcome, so
the cross-tenant case carries no distinct signal. -/
theorem source_not_found_isolation :
    (∀ (env : RunEnv) (p : Payload),
      findUnique env.db p.documentId p.organizationId = none →
      processKnowledgeBaseDocumentTask env p =
        RunOutput.mk
          (Except.ok (TaskResult.mk false p.documentId
            (some ("Document not found")) none))
          [] [] 0 [("Document not found")]) ∧
    (∀ (db : List KnowledgeBaseDocument) (id org : String),
      (∀ d ∈ db, d.id = id → d.organizationId ≠ org) →
      findUnique db id org = none) ∧
    (∀ (env env2 : RunEnv) (p p2 : Payload),
      findUnique env.db p.documentId p.organizationId = none →
      findUnique env2.db p2.documentId p2.organizationId = none →
      p.documentId = p2.documentId →
      processKnowledgeBaseDocumentTask env p =
        processKnowledgeBaseDocumentTask env2 p2) := by
  refine ⟨?_, ?_, ?_⟩
  · intro env p h
    simp only [processKnowledgeBaseDocumentTask, h]
  · intro db id org h
    refine List.find?_eq_none.mpr (fun d hd => ?_)
    simp only [Bool.and_eq_true, beq_iff_eq, not_and]
    intro h1 h2
    exact h d hd h1 h2
  · intro env env2 p p2 h1 h2 hid
    simp only [processKnowledgeBaseDocumentTask, h1, h2]
    rw [hid]

/-- Witness for C4: requesting `doc-1` as `org-2` while `doc-1` belongs
to `org-1`. -/
theorem source_not_found_isolation_witness :
    findUnique envSecond.db payloadCross.documentId
      payloadCross.organizationId = none ∧
    processKnowledgeBaseDocumentTask envSecond payloadCross =
      RunOutput.mk
        (Except.ok (TaskResult.mk false ("doc-1")
          (some ("Document not found")) none))
        [] [] 0 [("Document not found")] :=
  ⟨by decide, source_not_found_isolation.1 envSecond payloadCross (by decide)⟩

/-- C5: If extraction yields an empty or whitespace-only string, the run
writes `failed` with `processedAt` after the `processing` write, makes
no vector-index query, delete, or upsert call, and returns the
structured failure value instead of throwing. -/
theorem empty_extraction_fails_without_index_calls :
    ∀ (env : RunEnv) (p : Payload) (document : KnowledgeBaseDocument)
      (content : String),
      findUnique env.db p.documentId p.organizationId = some document →
      env.extractResult = Except.ok content →
      (strTrim content).isEmpty = true →
      processKnowledgeBaseDocumentTask env p =
        RunOutput.mk
          (Except.ok (TaskResult.mk false document.id
            (some ("No content extracted from document")) none))
          [StatusWrite.mk ("processing") false,
           StatusWrite.mk ("failed") true]
          [] 1 [("No content extracted from document")] := by
  intro env p document content hfind hex hempty
  simp only [processKnowledgeBaseDocumentTask, hfind, hex, hempty, if_true]

/-- Witness for C5 at a concrete whitespace-only extraction. -/
theorem empty_extraction_fails_without_index_calls_witness :
    (findUnique envBlank.db payloadA.documentId payloadA.organizationId =
      some docA ∧ envBlank.extractResult = Except.ok ("   ") ∧
      (strTrim ("   ")).isEmpty = true) ∧
    processKnowledgeBaseDocumentTask envBlank payloadA =
      RunOutput.mk
        (Except.ok (TaskResult.mk false ("doc-1")
          (some ("No content extracted from document")) none))
        [StatusWrite.mk ("processing") false,
         StatusWrite.mk ("failed") true]
        [] 1 [("No content extracted from document")] :=
  ⟨⟨by decide, by decide, by decide⟩,
    empty_extraction_fails_without_index_calls envBlank payloadA docA ("   ")
      (by decide) (by decide) (by decide)⟩

/-- C7: `deleteOldEmbeddings` returns normally for every input; for an
empty embedding list it makes no index call; its issued index calls do
not depend on whether the delete throws; and in the knowledge-base task
a throwing index delete changes nothing about the run except a warning
log — result, status writes, index calls and storage reads are
identical to the non-throwing run. -/
theorem delete_failure_swallowed :
    (∀ (avail : Bool) (d : Option String),
      deleteOldEmbeddings [] avail d = ([], [])) ∧
    (∀ (l : List ExistingEmbedding) (avail : Bool) (d : Option String),
      (deleteOldEmbeddings l avail d).1 =
        (deleteOldEmbeddings l avail none).1) ∧
    (∀ (db : List KnowledgeBaseDocument) (ext : Except String String)
        (exist : List ExistingEmbedding) (avail : Bool)
        (d d2 ups : Option String) (p : Payload),
      dropLogs (processKnowledgeBaseDocumentTask
          (RunEnv.mk db ext exist avail d ups) p) =
        dropLogs (processKnowledgeBaseDocumentTask
          (RunEnv.mk db ext exist avail d2 ups) p)) := by
  refine ⟨?_, ?_, ?_⟩
  · intro avail d
    simp [deleteOldEmbeddings]
  · intro l avail d
    unfold deleteOldEmbeddings
    split
    · rfl
    · cases d <;> simp
  · intro db ext exist avail d d2 ups p
    unfold processKnowledgeBaseDocumentTask
    cases hfind : findUnique db p.documentId p.organizationId with
    | none => rfl
    | some document =>
        simp only [hfind]
        cases ext with
        | error e => rfl
        | ok content =>
            by_cases hc : (strTrim content).isEmpty = true
            · simp only [hc, if_true]
            · simp only [hc, if_false]
              by_cases hch : (chunkText content 500 50).isEmpty = true
              · simp [hch, dropLogs]
              · simp only [hch, if_false]
                by_cases hup :
                    (!(kbChunkItems document p.organizationId
                      content).isEmpty && avail) = true
                · simp only [hup, if_true]
                  cases ups <;> simp [dropLogs]
                · simp only [hup, if_false]
                  simp [dropLogs]

/-- No delete call occurs after an upsert call in the trace. -/
def deletesPrecedeUpserts : List IndexOp → Bool
  | [] => true
  | IndexOp.upsert _ :: rest => rest.all (fun op => !op.isDelete)
  | _ :: rest => deletesPrecedeUpserts rest

/-- Shape of a run's vector-index call trace: either empty, or one query
followed by an optional delete of exactly the existing embedding ids
followed by an optional upsert (issued only when the index client is
configured). -/
lemma run_ops_shape (env : RunEnv) (p : Payload) :
    (processKnowledgeBaseDocumentTask env p).indexOps = [] ∨
    ∃ (sid : String) (uOps : List IndexOp),
      (processKnowledgeBaseDocumentTask env p).indexOps =
        IndexOp.query sid ("knowledge_base_document") p.organizationId ::
          ((if (!env.existingEmbeddings.isEmpty &&
              env.vectorIndexAvailable) = true then
              [IndexOp.delete (env.existingEmbeddings.map (fun e => e.id))]
            else []) ++ uOps) ∧
      (uOps = [] ∨ (env.vectorIndexAvailable = true ∧
        ∃ items, uOps = [IndexOp.upsert items])) := by
  unfold processKnowledgeBaseDocumentTask
  cases hfind : findUnique env.db p.documentId p.organizationId with
  | none => exact Or.inl rfl
  | some document =>
      cases hext : env.extractResult with
      | error e => exact Or.inl rfl
      | ok content =>
          by_cases hc : (strTrim content).isEmpty = true
          · left
            simp [hc]
          · by_cases hch : (chunkText content 500 50).isEmpty = true
            · right
              refine ⟨document.id, [], ?_, Or.inl rfl⟩
              simp [hc, hch]
            · by_cases hup : (!(kbChunkItems document p.organizationId
                  content).isEmpty && env.vectorIndexAvailable) = true
              · right
                refine ⟨document.id,
                  [IndexOp.upsert
                    (kbChunkItems document p.organizationId content)],
                  ?_, Or.inr ⟨(Bool.and_eq_true _ _ |>.mp hup).2, _, rfl⟩⟩
                cases hupf : env.upsertFailure with
                | some m => simp [hc, hch, hup, hupf]
                | none => simp [hc, hch, hup, hupf]
              · right
                refine ⟨document.id, [], ?_, Or.inl rfl⟩
                simp [hc, hch, hup]

/-- C6: In every run, no vector-index delete call follows an upsert
call; every delete call targets exactly the full set of the source's
previously existing embedding ids; and whenever existing embeddings are
present and the run upserts, the delete of the full old id set is part
of the same trace (so it precedes the upsert). -/
theorem delete_precedes_upsert :
    ∀ (env : RunEnv) (p : Payload),
      deletesPrecedeUpserts
        (processKnowledgeBaseDocumentTask env p).indexOps = true ∧
      (∀ ids, IndexOp.delete ids ∈
          (processKnowledgeBaseDocumentTask env p).indexOps →
        ids = env.existingEmbeddings.map (fun e => e.id)) ∧
      (env.existingEmbeddings ≠ [] →
        ∀ items, IndexOp.upsert items ∈
            (processKnowledgeBaseDocumentTask env p).indexOps →
          IndexOp.delete (env.existingEmbeddings.map (fun e => e.id)) ∈
            (processKnowledgeBaseDocumentTask env p).indexOps) := by
  intro env p
  rcases run_ops_shape env p with hnil | ⟨sid, uOps, hshape, huOps⟩
  · rw [hnil]
    exact ⟨rfl, by simp, by simp⟩
  · rw [hshape]
    by_cases hdel : (!env.existingEmbeddings.isEmpty &&
        env.vectorIndexAvailable) = true
    · simp only [hdel, if_true]
      rcases huOps with rfl | ⟨havail, items, rfl⟩
      · refine ⟨?_, ?_, ?_⟩
        · simp [deletesPrecedeUpserts]
        · intro ids hmem
          simp [IndexOp.delete.injEq] at hmem
          exact hmem
        · intro hne items hmem
          simp at hmem
      · refine ⟨?_, ?_, ?_⟩
        · simp [deletesPrecedeUpserts, List.all, IndexOp.isDelete]
        · intro ids hmem
          simp [IndexOp.delete.injEq] at hmem
          exact hmem
        · intro hne items2 hmem
          simp
    · simp only [hdel, if_false]
      rcases huOps with rfl | ⟨havail, items, rfl⟩
      · refine ⟨by simp [deletesPrecedeUpserts], ?_, ?_⟩
        · intro ids hmem
          simp at hmem
        · intro hne items hmem
          simp at hmem
      · refine ⟨by simp [deletesPrecedeUpserts, List.all, IndexOp.isDelete],
          ?_, ?_⟩
        · intro ids hmem
          simp at hmem
        · intro hne items2 hmem
          exfalso
          rw [Bool.and_eq_true] at hdel
          have h1 : (!env.existingEmbeddings.isEmpty) = true := by
            simp [List.isEmpty_iff, hne]
          exact hdel ⟨h1, havail⟩

/-- Witness for C6: the second sync of `doc-1` deletes exactly the one
existing embedding id. -/
theorem delete_precedes_upsert_witness :
    (IndexOp.delete [("knowledge_base_document_doc-1_chunk0")] ∈
      (processKnowledgeBaseDocumentTask envSecond payloadA).indexOps) ∧
    [("knowledge_base_document_doc-1_chunk0")] =
      envSecond.existingEmbeddings.map (fun e => e.id) :=
  ⟨by decide, (delete_precedes_upsert envSecond payloadA).2.1 _ (by decide)⟩

/-- The chunker loop always yields at least one chunk. -/
lemma chunkTextGo_ne_nil (fuel : Nat) (cs : List Char)
    (chunkSize stride : Nat) :
    chunkTextGo fuel cs chunkSize stride ≠ [] := by
  cases fuel with
  | zero => simp [chunkTextGo]
  | succ f =>
      unfold chunkTextGo
      split <;> simp

/-- `chunkText` never returns an empty chunk list. -/
lemma chunkText_ne_nil (text : String) (chunkSize overlap : Nat) :
    chunkText text chunkSize overlap ≠ [] := by
  unfold chunkText
  simp [chunkTextGo_ne_nil]

/-- Counterexample to C1: on the second sync of the unchanged `doc-1`
(every existing embedding records an `updatedAt` equal to the record's,
so `needsUpdate` is false) the run still issues vector-index delete and
upsert calls — the claimed skip path does not exist in
`processKnowledgeBaseDocumentTask`, which never consults `needsUpdate`. -/
theorem skip_path_counterexample :
    needsUpdate envSecond.existingEmbeddings docA.updatedAt = false ∧
    ¬((processKnowledgeBaseDocumentTask envSecond payloadA).indexOps.any
        IndexOp.isDelete = false ∧
      (processKnowledgeBaseDocumentTask envSecond payloadA).indexOps.any
        IndexOp.isUpsert = false) := by decide

/-- C1 amended: the knowledge-base document task performs no staleness
check.  Even when `needsUpdate` would be false, a run that finds the
document, extracts nonempty content and has existing embeddings and a
configured index deletes all existing embedding ids, re-upserts the
regenerated deterministic-id chunk items (when any survive filtering),
and marks the record `completed`; idempotency comes from the
deterministic ids, not from skipping. -/
theorem unchanged_source_still_reindexes :
    ∀ (env : RunEnv) (p : Payload) (document : KnowledgeBaseDocument)
      (content : String),
      findUnique env.db p.documentId p.organizationId = some document →
      env.extractResult = Except.ok content →
      (strTrim content).isEmpty = false →
      env.existingEmbeddings ≠ [] →
      env.vectorIndexAvailable = true →
      env.upsertFailure = none →
      needsUpdate env.existingEmbeddings document.updatedAt = false →
      kbChunkItems document p.organizationId content ≠ [] →
      processKnowledgeBaseDocumentTask env p =
        RunOutput.mk
          (Except.ok (TaskResult.mk true document.id none
            (some (kbChunkItems document p.organizationId content).length)))
          [StatusWrite.mk ("processing") false,
           StatusWrite.mk ("completed") true]
          [IndexOp.query document.id ("knowledge_base_document")
             p.organizationId,
           IndexOp.delete (env.existingEmbeddings.map (fun e => e.id)),
           IndexOp.upsert (kbChunkItems document p.organizationId content)]
          1
          (if env.deleteFailure.isSome = true then
            [("Failed to delete existing embeddings")] else []) := by
  intro env p document content hfind hex hc hne havail hups hstale hitems
  have hch : (chunkText content 500 50).isEmpty = false := by
    cases hx : (chunkText content 500 50).isEmpty with
    | false => rfl
    | true =>
        exact absurd (List.isEmpty_iff.mp hx) (chunkText_ne_nil content 500 50)
  have hexist : env.existingEmbeddings.isEmpty = false := by
    cases hx : env.existingEmbeddings.isEmpty with
    | false => rfl
    | true => exact absurd (List.isEmpty_iff.mp hx) hne
  have hitemsb : (kbChunkItems document p.organizationId content).isEmpty =
      false := by
    cases hx : (kbChunkItems document p.organizationId content).isEmpty with
    | false => rfl
    | true => exact absurd (List.isEmpty_iff.mp hx) hitems
  simp only [processKnowledgeBaseDocumentTask, hfind, hex, hc, hch, hexist,
    hitemsb, havail, hups, Bool.not_false, Bool.and_self, if_true, if_false,
    Bool.true_and, Bool.and_true]
  simp

/-- Witness for the amended C1 on the concrete second-sync environment. -/
theorem unchanged_source_still_reindexes_witness :
    (needsUpdate envSecond.existingEmbeddings docA.updatedAt = false ∧
      kbChunkItems docA ("org-1") ("hello world") ≠ []) ∧
    processKnowledgeBaseDocumentTask envSecond payloadA =
      RunOutput.mk
        (Except.ok (TaskResult.mk true docA.id none
          (some (kbChunkItems docA ("org-1") ("hello world")).length)))
        [StatusWrite.mk ("processing") false,
         StatusWrite.mk ("completed") true]
        [IndexOp.query docA.id ("knowledge_base_document") ("org-1"),
         IndexOp.delete (envSecond.existingEmbeddings.map (fun e => e.id)),
         IndexOp.upsert (kbChunkItems docA ("org-1") ("hello world"))]
        1
        (if envSecond.deleteFailure.isSome = true then
          [("Failed to delete existing embeddings")] else []) :=
  ⟨⟨by decide, by decide⟩,
    unchanged_source_still_reindexes envSecond payloadA docA ("hello world")
      (by decide) (by decide) (by decide) (by decide) (by decide) (by decide)
      (by decide) (by decide)⟩

/-- Counterexample to C8: when the vector-index upsert call throws, the
run does mark the record `failed` with `processedAt`, but no error
leaves the run — the catch-all converts it into a structured
`{success:false, error}` return value (`raised` is false), so nothing is
propagated to the task runner for automatic retry. -/
theorem upsert_failure_not_rethrown :
    envUpsertFail.upsertFailure = some ("vector upsert failed") ∧
    (processKnowledgeBaseDocumentTask envUpsertFail payloadA).indexOps.any
      IndexOp.isUpsert = true ∧
    raised (processKnowledgeBaseDocumentTask envUpsertFail payloadA).result =
      false ∧
    (processKnowledgeBaseDocumentTask envUpsertFail payloadA).result =
      Except.ok (TaskResult.mk false ("doc-1")
        (some ("vector upsert failed")) none) ∧
    (processKnowledgeBaseDocumentTask envUpsertFail payloadA).statusWrites =
      [StatusWrite.mk ("processing") false,
       StatusWrite.mk ("failed") true] := by decide

/-- C8 amended: when the object-storage fetch/extraction throws, or the
vector-index upsert throws, the record is marked `failed` with
`processedAt` (after the `processing` write) and the error is caught and
returned as the structured `{success:false, error}` value; it is not
re-thrown to the task runner. -/
theorem failure_marks_failed_then_returns :
    (∀ (env : RunEnv) (p : Payload) (document : KnowledgeBaseDocument)
        (e : String),
      findUnique env.db p.documentId p.organizationId = some document →
      env.extractResult = Except.error e →
      processKnowledgeBaseDocumentTask env p =
        RunOutput.mk
          (Except.ok (TaskResult.mk false p.documentId (some e) none))
          [StatusWrite.mk ("processing") false,
           StatusWrite.mk ("failed") true]
          [] 1 [("Error processing Knowledge Base document")]) ∧
    (∀ (env : RunEnv) (p : Payload) (document : KnowledgeBaseDocument)
        (content m : String),
      findUnique env.db p.documentId p.organizationId = some document →
      env.extractResult = Except.ok content →
      (strTrim content).isEmpty = false →
      env.vectorIndexAvailable = true →
      kbChunkItems document p.organizationId content ≠ [] →
      env.upsertFailure = some m →
      (processKnowledgeBaseDocumentTask env p).result =
        Except.ok (TaskResult.mk false p.documentId (some m) none) ∧
      (processKnowledgeBaseDocumentTask env p).statusWrites =
        [StatusWrite.mk ("processing") false,
         StatusWrite.mk ("failed") true] ∧
      raised (processKnowledgeBaseDocumentTask env p).result = false) := by
  constructor
  · intro env p document e hfind hex
    simp only [processKnowledgeBaseDocumentTask, hfind, hex]
  · intro env p document content m hfind hex hc havail hitems hups
    have hch : (chunkText content 500 50).isEmpty = false := by
      cases hx : (chunkText content 500 50).isEmpty with
      | false => rfl
      | true =>
          exact absurd (List.isEmpty_iff.mp hx)
            (chunkText_ne_nil content 500 50)
    have hitemsb : (kbChunkItems document p.organizationId content).isEmpty =
        false := by
      cases hx : (kbChunkItems document p.organizationId content).isEmpty with
      | false => rfl
      | true => exact absurd (List.isEmpty_iff.mp hx) hitems
    simp only [processKnowledgeBaseDocumentTask, hfind, hex, hc, hch,
      hitemsb, havail, hups, Bool.not_false, Bool.and_self, if_false,
      Bool.and_true]
    simp [raised]

/-- Witness for the amended C8 at the concrete failing-upsert run. -/
theorem failure_marks_failed_then_returns_witness :
    (kbChunkItems docA ("org-1") ("hello world") ≠ [] ∧
      envUpsertFail.upsertFailure = some ("vector upsert failed")) ∧
    ((processKnowledgeBaseDocumentTask envUpsertFail payloadA).result =
      Except.ok (TaskResult.mk false ("doc-1")
        (some ("vector upsert failed")) none) ∧
     (processKnowledgeBaseDocumentTask envUpsertFail payloadA).statusWrites =
      [StatusWrite.mk ("processing") false,
       StatusWrite.mk ("failed") true] ∧
     raised (processKnowledgeBaseDocumentTask envUpsertFail payloadA).result =
      false) :=
  ⟨⟨by decide, by decide⟩,
    failure_marks_failed_then_returns.2 envUpsertFail payloadA docA
      ("hello world") ("vector upsert failed") (by decide) (by decide)
      (by decide) (by decide) (by decide) (by decide)⟩

/-- Looking up a key that none of the spread-in extra bindings uses
falls through to the base object fields. -/
lemma objGet_base_append (extra base : List (String × String)) (k : String)
    (hk : ∀ q ∈ extra, q.1 ≠ k) :
    objGet (base ++ extra) k = objGet base k := by
  unfold objGet
  rw [List.reverse_append, List.find?_append]
  have hnone : extra.reverse.find? (fun p => p.1 == k) = none := by
    refine List.find?_eq_none.mpr (fun q hq => ?_)
    simp only [beq_iff_eq]
    exact hk q (List.mem_reverse.mp hq)
  rw [hnone]
  rfl

/-- Counterexample to C9: `createChunkItems` spreads `extraMetadata`
after the base fields, so an `extraMetadata` binding for
`organizationId` overrides the tenant tag — the produced item's
`metadata.organizationId` is the extra value, not the organizationId
argument. -/
theorem extra_metadata_overrides_tenant_tag :
    (createChunkItems ("hello") ("s1") SourceType.knowledge_base_document
      ("org-1") ("2024-01-01T00:00:00.000Z") ("pfx")
      [(("organizationId"), ("org-evil"))] 500 50).map
      (fun item => objGet item.metadata ("organizationId")) =
      [some ("org-evil")] ∧
    some ("org-evil") ≠ some ("org-1") := by decide

/-- Any upsert call a run issues carries exactly the chunk items built
for the looked-up document from the extracted content. -/
lemma run_upsert_items (env : RunEnv) (p : Payload) (items : List ChunkItem)
    (h : IndexOp.upsert items ∈
      (processKnowledgeBaseDocumentTask env p).indexOps) :
    ∃ document content,
      findUnique env.db p.documentId p.organizationId = some document ∧
      env.extractResult = Except.ok content ∧
      items = kbChunkItems document p.organizationId content := by
  unfold processKnowledgeBaseDocumentTask at h
  cases hfind : findUnique env.db p.documentId p.organizationId with
  | none =>
      rw [hfind] at h
      simp at h
  | some document =>
      rw [hfind] at h
      cases hext : env.extractResult with
      | error e =>
          rw [hext] at h
          simp at h
      | ok content =>
          rw [hext] at h
          refine ⟨document, content, rfl, rfl, ?_⟩
          by_cases hc : (strTrim content).isEmpty = true
          · simp [hc] at h
          · simp only [hc, if_false] at h
            by_cases hch : (chunkText content 500 50).isEmpty = true
            · by_cases hdel : (!env.existingEmbeddings.isEmpty &&
                  env.vectorIndexAvailable) = true
              · simp [hch, hdel] at h
              · simp [hch, hdel] at h
            · simp only [hch, if_false] at h
              by_cases hup : (!(kbChunkItems document p.organizationId
                  content).isEmpty && env.vectorIndexAvailable) = true
              · cases hupf : env.upsertFailure with
                | some m =>
                    simp only [hup, if_true, hupf] at h
                    by_cases hdel : (!env.existingEmbeddings.isEmpty &&
                        env.vectorIndexAvailable) = true
                    · simp [hdel] at h
                      exact h
                    · simp [hdel] at h
                      exact h
                | none =>
                    simp only [hup, if_true, hupf] at h
                    by_cases hdel : (!env.existingEmbeddings.isEmpty &&
                        env.vectorIndexAvailable) = true
                    · simp [hdel, hup] at h
                      exact h
                    · simp [hdel, hup] at h
                      exact h
              · cases hupf : env.upsertFailure with
                | some m => simp [hup, hupf] at h
                | none => simp [hup, hupf] at h

/-- C9 amended: every item produced by `createChunkItems` carries
`metadata.organizationId`/`sourceId`/`updatedAt` equal to the
corresponding arguments PROVIDED `extraMetadata` does not itself bind
those keys (the spread overrides base fields on collision); and every
item in any upsert the knowledge-base task issues (which passes no
extra metadata) carries the payload's organizationId, the document id
and the document's `updatedAt` string. -/
theorem chunk_metadata_tenant_tagging :
    (∀ (text sourceId : String) (st : SourceType)
        (org upd pfx : String) (extra : List (String × String))
        (cs ov : Nat),
      (∀ q ∈ extra, q.1 ≠ ("organizationId")) →
      (∀ q ∈ extra, q.1 ≠ ("sourceId")) →
      (∀ q ∈ extra, q.1 ≠ ("updatedAt")) →
      ∀ item ∈ createChunkItems text sourceId st org upd pfx extra cs ov,
        objGet item.metadata ("organizationId") = some org ∧
        objGet item.metadata ("sourceId") = some sourceId ∧
        objGet item.metadata ("updatedAt") = some upd) ∧
    (∀ (env : RunEnv) (p : Payload) (items : List ChunkItem),
      IndexOp.upsert items ∈
        (processKnowledgeBaseDocumentTask env p).indexOps →
      ∀ item ∈ items, ∃ document,
        findUnique env.db p.documentId p.organizationId = some document ∧
        objGet item.metadata ("organizationId") = some p.organizationId ∧
        objGet item.metadata ("sourceId") = some document.id ∧
        objGet item.metadata ("updatedAt") = some document.updatedAt) := by
  constructor
  · intro text sourceId st org upd pfx extra cs ov h1 h2 h3 item hitem
    unfold createChunkItems at hitem
    have hmem := List.mem_of_mem_filter hitem
    unfold createChunkItemsAll at hmem
    rcases List.mem_map.mp hmem with ⟨ic, hic, rfl⟩
    refine ⟨?_, ?_, ?_⟩
    · rw [objGet_base_append extra _ _ h1]
      simp [objGet, List.find?]
    · rw [objGet_base_append extra _ _ h2]
      simp [objGet, List.find?]
    · rw [objGet_base_append extra _ _ h3]
      simp [objGet, List.find?]
  · intro env p items hmem item hitem
    rcases run_upsert_items env p items hmem with
      ⟨document, content, hfind, hext, rfl⟩
    refine ⟨document, hfind, ?_⟩
    unfold kbChunkItems at hitem
    have hmem2 := List.mem_of_mem_filter hitem
    rcases List.mem_map.mp hmem2 with ⟨ic, hic, rfl⟩
    refine ⟨?_, ?_, ?_⟩ <;> simp [objGet, List.find?]

/-- Concrete chunk item used by the C9 witness. -/
def itemW : ChunkItem :=
  ChunkItem.mk ("pfx_s1_chunk0") ("hello")
    [("organizationId", ("org-1")),
     ("sourceType", ("knowledge_base_document")),
     ("sourceId", ("s1")),
     ("content", ("hello")),
     ("updatedAt", ("2024-01-01T00:00:00.000Z"))]

/-- Witness for the amended C9 on a concrete single-chunk input. -/
theorem chunk_metadata_tenant_tagging_witness :
    ((∀ q ∈ ([] : List (String × String)), q.1 ≠ ("organizationId")) ∧
      itemW ∈ createChunkItems ("hello") ("s1")
        SourceType.knowledge_base_document ("org-1")
        ("2024-01-01T00:00:00.000Z") ("pfx") [] 500 50) ∧
    (objGet itemW.metadata ("organizationId") = some ("org-1") ∧
     objGet itemW.metadata ("sourceId") = some ("s1") ∧
     objGet itemW.metadata ("updatedAt") =
        some ("2024-01-01T00:00:00.000Z")) :=
  ⟨⟨by decide, by decide⟩,
    chunk_metadata_tenant_tagging.1 ("hello") ("s1")
      SourceType.knowledge_base_document ("org-1")
      ("2024-01-01T00:00:00.000Z") ("pfx") [] 500 50
      (by decide) (by decide) (by decide) itemW (by decide)⟩

/-- The id list of the mapped chunk items is exactly
`idPrefix_sourceId_chunk<i>` for `i` ranging over the chunk indices; it
depends only on the prefix, the source id and the number of chunks. -/
lemma createChunkItemsAll_ids (text sourceId : String) (st : SourceType)
    (org upd pfx : String) (extra : List (String × String)) (cs ov : Nat) :
    (createChunkItemsAll text sourceId st org upd pfx extra cs ov).map
        (fun item => item.id) =
      (List.range (chunkText text cs ov).length).map
        (fun i => pfx ++ "_" ++ sourceId ++ "_chunk" ++ toString i) := by
  unfold createChunkItemsAll
  rw [List.map_map, ← List.enum_map_fst (chunkText text cs ov),
    List.map_map]
  rfl

/-- Rendering of the chunk index 0 in an id. -/
lemma chunk_suffix_zero : ("_chunk") ++ toString (0 : Nat) = ("_chunk0") :=
  rfl

/-- Rendering of the chunk index 1 in an id. -/
lemma chunk_suffix_one : ("_chunk") ++ toString (1 : Nat) = ("_chunk1") :=
  rfl

/-- C3: chunk item ids are a deterministic function of (id prefix,
source id, chunk index): the i-th mapped item's id is
`idPrefix_sourceId_chunk<i>`; two runs with the same prefix, source id
and chunk count produce identical id lists; every item surviving the
filter carries such an id for some chunk index; and a knowledge-base
document whose content chunks into exactly two non-blank chunks yields
items with ids `knowledge_base_document_<documentId>_chunk0` and
`_chunk1`, which the run upserts. -/
theorem chunk_ids_deterministic :
    (∀ (text sourceId : String) (st : SourceType) (org upd pfx : String)
        (extra : List (String × String)) (cs ov : Nat),
      (createChunkItemsAll text sourceId st org upd pfx extra cs ov).map
          (fun item => item.id) =
        (List.range (chunkText text cs ov).length).map
          (fun i => pfx ++ "_" ++ sourceId ++ "_chunk" ++ toString i)) ∧
    (∀ (text text2 sourceId : String) (st st2 : SourceType)
        (org org2 upd upd2 pfx : String)
        (extra extra2 : List (String × String)) (cs ov : Nat),
      (chunkText text cs ov).length = (chunkText text2 cs ov).length →
      (createChunkItemsAll text sourceId st org upd pfx extra cs ov).map
          (fun item => item.id) =
        (createChunkItemsAll text2 sourceId st2 org2 upd2 pfx extra2
            cs ov).map (fun item => item.id)) ∧
    (∀ (text sourceId : String) (st : SourceType) (org upd pfx : String)
        (extra : List (String × String)) (cs ov : Nat),
      ∀ item ∈ createChunkItems text sourceId st org upd pfx extra cs ov,
        ∃ j, j < (chunkText text cs ov).length ∧
          item.id = pfx ++ "_" ++ sourceId ++ "_chunk" ++ toString j) ∧
    (∀ (env : RunEnv) (p : Payload) (document : KnowledgeBaseDocument)
        (content c1 c2 : String),
      findUnique env.db p.documentId p.organizationId = some document →
      env.extractResult = Except.ok content →
      (strTrim content).isEmpty = false →
      chunkText content 500 50 = [c1, c2] →
      (strTrim c1).isEmpty = false →
      (strTrim c2).isEmpty = false →
      (kbChunkItems document p.organizationId content).map
          (fun item => item.id) =
        [("knowledge_base_document_") ++ document.id ++ ("_chunk0"),
         ("knowledge_base_document_") ++ document.id ++ ("_chunk1")] ∧
      (env.vectorIndexAvailable = true → env.upsertFailure = none →
        IndexOp.upsert (kbChunkItems document p.organizationId content) ∈
          (processKnowledgeBaseDocumentTask env p).indexOps)) := by
  refine ⟨createChunkItemsAll_ids, ?_, ?_, ?_⟩
  · intro text text2 sourceId st st2 org org2 upd upd2 pfx extra extra2
      cs ov hlen
    rw [createChunkItemsAll_ids, createChunkItemsAll_ids, hlen]
  · intro text sourceId st org upd pfx extra cs ov item hitem
    unfold createChunkItems at hitem
    have hmem := List.mem_of_mem_filter hitem
    unfold createChunkItemsAll at hmem
    rcases List.mem_map.mp hmem with ⟨⟨i, x⟩, hic, rfl⟩
    refine ⟨i, ?_, rfl⟩
    have h2 := List.mk_mem_enum_iff_getElem?.mp hic
    rcases List.getElem?_eq_some.mp h2 with ⟨hlt, _⟩
    exact hlt
  · intro env p document content c1 c2 hfind hex hc hchunks h1 h2
    have hitems : kbChunkItems document p.organizationId content =
        [ChunkItem.mk
          (("knowledge_base_document_") ++ document.id ++ ("_chunk") ++
            toString (0 : Nat)) c1
          [("organizationId", p.organizationId),
           ("sourceType", ("knowledge_base_document")),
           ("sourceId", document.id),
           ("content", c1),
           ("documentName", document.name),
           ("updatedAt", document.updatedAt)],
         ChunkItem.mk
          (("knowledge_base_document_") ++ document.id ++ ("_chunk") ++
            toString (1 : Nat)) c2
          [("organizationId", p.organizationId),
           ("sourceType", ("knowledge_base_document")),
           ("sourceId", document.id),
           ("content", c2),
           ("documentName", document.name),
           ("updatedAt", document.updatedAt)]] := by
      unfold kbChunkItems
      rw [hchunks]
      simp [List.enum, List.enumFrom, h1, h2]
    constructor
    · rw [hitems]
      simp only [List.map_cons, List.map_nil]
      rw [String.append_assoc _ ("_chunk") (toString (0 : Nat)),
        chunk_suffix_zero,
        String.append_assoc _ ("_chunk") (toString (1 : Nat)),
        chunk_suffix_one]
    · intro havail hups
      have hch : (chunkText content 500 50).isEmpty = false := by
        rw [hchunks]
        rfl
      have hitemsb : (kbChunkItems document p.organizationId
          content).isEmpty = false := by
        rw [hitems]
        rfl
      simp only [processKnowledgeBaseDocumentTask, hfind, hex, hc, hch,
        hitemsb, havail, hups, Bool.not_false, Bool.and_self, if_false,
        if_true, Bool.and_true]
      by_cases hdel : (!env.existingEmbeddings.isEmpty) = true
      · simp [hdel]
      · simp [hdel]

/-- A 600-character content fixture that chunks into exactly two chunks
at chunkSize 500 / overlap 50. -/
def contentW : String := String.mk (List.replicate 600 ('a'))

/-- First chunk of `contentW`: characters 0-499. -/
def chunkW1 : String := String.mk (List.replicate 500 ('a'))

/-- Second chunk of `contentW`: characters 450-599. -/
def chunkW2 : String := String.mk (List.replicate 150 ('a'))

/-- First-sync environment whose extraction yields `contentW`. -/
def envTwoChunks : RunEnv :=
  RunEnv.mk [docA] (Except.ok contentW) [] true none none

set_option maxRecDepth 8192 in
/-- Witness for C3: the concrete two-chunk document produces the
claim's literal ids. -/
theorem chunk_ids_deterministic_witness :
    (chunkText contentW 500 50 = [chunkW1, chunkW2] ∧
      (strTrim chunkW1).isEmpty = false ∧
      (strTrim chunkW2).isEmpty = false) ∧
    ((kbChunkItems docA ("org-1") contentW).map (fun item => item.id) =
      [("knowledge_base_document_doc-1_chunk0"),
       ("knowledge_base_document_doc-1_chunk1")] ∧
     IndexOp.upsert (kbChunkItems docA ("org-1") contentW) ∈
       (processKnowledgeBaseDocumentTask envTwoChunks payloadA).indexOps) :=
  ⟨⟨by decide, by decide, by decide⟩, by
    have h := chunk_ids_deterministic.2.2.2 envTwoChunks payloadA docA
      contentW chunkW1 chunkW2 (by decide) (by decide) (by decide)
      (by decide) (by decide) (by decide)
    exact ⟨h.1, h.2 (by decide) (by decide)⟩⟩
